import Mathlib

/-!
Shallow embedding of the spreadsheet backend's command parser and grid store
(src/backend/src/services/spreadsheetService.ts) with proofs about its
behavior.  Numbers are modelled as `Int` (JS numbers on the integer range the
code exercises); strings as Lean `String` (the inputs at issue are ASCII, where
JS UTF-16 code units coincide with code points).  Event `id` and `timestamp`
fields (wall clock / Math.random) are omitted from the event records; no claim
refers to them.
-/

/-- Whitespace class used for JS `trim()` and `split(/\s+/)` (ASCII subset). -/
def isSpaceChar (c : Char) : Bool :=
  c = ' ' ∨ c = '\t' ∨ c = '\n' ∨ c = '\r' ∨ c = Char.ofNat 11 ∨ c = Char.ofNat 12

/-- JS `String.prototype.trim` on the char list. -/
def trimChars (s : List Char) : List Char :=
  ((s.dropWhile isSpaceChar).reverse.dropWhile isSpaceChar).reverse

/-- JS `message.trim()`. -/
def jsTrim (s : String) : String := ⟨trimChars s.toList⟩

/-- JS `s.split(/\s+/)`: split at maximal whitespace runs (a leading or
trailing separator yields an empty token there, as in JS).  The second
argument is `some cur` while a token is being collected and `none` while a
separator run is being skipped. -/
def splitWsAux : List Char → Option (List Char) → List (List Char)
  | [], some cur => [cur.reverse]
  | [], none => [[]]
  | c :: cs, some cur =>
    if isSpaceChar c then cur.reverse :: splitWsAux cs none
    else splitWsAux cs (some (c :: cur))
  | c :: cs, none =>
    if isSpaceChar c then splitWsAux cs none
    else splitWsAux cs (some [c])

/-- JS `s.split(/\s+/)` as strings. -/
def splitWs (s : String) : List String :=
  (splitWsAux s.toList (some [])).map (fun l => ⟨l⟩)

/-- Character class `[A-Z]`. -/
def isUpperAlpha (c : Char) : Bool := 'A' ≤ c ∧ c ≤ 'Z'

/-- Character class `\d`. -/
def isDigitChar (c : Char) : Bool := '0' ≤ c ∧ c ≤ '9'

/-- Character class `[A-Z]` under the `/i` flag, i.e. any ASCII letter. -/
def isAsciiLetter (c : Char) : Bool :=
  ('A' ≤ c ∧ c ≤ 'Z') ∨ ('a' ≤ c ∧ c ≤ 'z')

/-- JS regex line terminators, which `.` never matches. -/
def isLineTerm (c : Char) : Bool :=
  c = '\n' ∨ c = '\r' ∨ c = Char.ofNat 0x2028 ∨ c = Char.ofNat 0x2029

/-- Match a literal (given in lowercase) case-insensitively at the head of the
input, returning the remainder. -/
def stripLit : List Char → List Char → Option (List Char)
  | cs, [] => some cs
  | [], _ :: _ => none
  | c :: cs, l :: ls => if c.toLower = l then stripLit cs ls else none

/-- Match `\s+` (greedy, maximal run) at the head of the input. -/
def stripSpaces1 (cs : List Char) : Option (List Char) :=
  match cs with
  | [] => none
  | c :: rest => if isSpaceChar c then some (rest.dropWhile isSpaceChar) else none

/-- Anchored match of `^([A-Z]+)(\d+)$` returning the two capture groups.
The classes `[A-Z]` and `\d` are disjoint, so the greedy match is the maximal
letter prefix followed by an all-digit remainder. -/
def matchLettersDigits (s : String) : Option (String × String) :=
  let cs := s.toList
  let letters := cs.takeWhile isUpperAlpha
  let rest := cs.dropWhile isUpperAlpha
  if letters.isEmpty then none
  else if rest.isEmpty then none
  else if rest.all isDigitChar then some (⟨letters⟩, ⟨rest⟩)
  else none

/-- Anchored match of `^([A-Z]*)(\d+)$` (the end-of-range token; the letter
group may be empty). -/
def matchOptLettersDigits (s : String) : Option (String × String) :=
  let cs := s.toList
  let letters := cs.takeWhile isUpperAlpha
  let rest := cs.dropWhile isUpperAlpha
  if rest.isEmpty then none
  else if rest.all isDigitChar then some (⟨letters⟩, ⟨rest⟩)
  else none

/-- Anchored match of `^([A-Z]+)(\d+)-([A-Z]*\d+)$` returning the three groups
(start letters, start digits, end token). -/
def matchRange (s : String) : Option (String × String × String) :=
  let cs := s.toList
  let letters := cs.takeWhile isUpperAlpha
  let rest1 := cs.dropWhile isUpperAlpha
  let digits := rest1.takeWhile isDigitChar
  let rest2 := rest1.dropWhile isDigitChar
  if letters.isEmpty ∨ digits.isEmpty then none
  else
    match rest2 with
    | '-' :: tail =>
      let td := tail.dropWhile isUpperAlpha
      if !td.isEmpty ∧ td.all isDigitChar then some (⟨letters⟩, ⟨digits⟩, ⟨tail⟩)
      else none
    | _ => none

/-- Match the suffix `to\s+(.+)$` of the header-rename regex, returning the
free-text group.  `.` does not cross line terminators; the input here is
always a suffix of a trimmed message, so it cannot be whitespace-only. -/
def matchRenameTail (cs : List Char) : Option String :=
  match stripLit cs ['t', 'o'] with
  | none => none
  | some r1 =>
    match stripSpaces1 r1 with
    | none => none
    | some r2 => if r2.isEmpty ∨ r2.any isLineTerm then none else some ⟨r2⟩

/-- Anchored, case-insensitive match of
`^change\s+column\s+([A-Z]+)\s+(?:header\s+name\s+)?to\s+(.+)$` returning the
column-letters group and the new-name group.  The optional group is tried
first and the engine falls back to omitting it, as regex backtracking does;
all other sub-matches (maximal letter and whitespace runs) are deterministic
because the neighboring classes are disjoint. -/
def matchRename (s : String) : Option (String × String) := do
  let r1 ← stripLit s.toList "change".toList
  let r2 ← stripSpaces1 r1
  let r3 ← stripLit r2 "column".toList
  let r4 ← stripSpaces1 r3
  let letters := r4.takeWhile isAsciiLetter
  if letters.isEmpty then none
  else
    let r5 := r4.dropWhile isAsciiLetter
    let r6 ← stripSpaces1 r5
    let withOpt : Option String := do
      let o1 ← stripLit r6 "header".toList
      let o2 ← stripSpaces1 o1
      let o3 ← stripLit o2 "name".toList
      let o4 ← stripSpaces1 o3
      matchRenameTail o4
    match withOpt with
    | some v => some (⟨letters⟩, v)
    | none =>
      match matchRenameTail r6 with
      | some v => some (⟨letters⟩, v)
      | none => none

/-- JS `toUpperCase` on ASCII content, defined so it computes by reduction
(`String.toUpper` itself does not reduce definitionally). -/
def jsToUpper (s : String) : String := ⟨s.toList.map Char.toUpper⟩

/-- JS `parseInt` on an all-digit capture group. -/
def parseIntDigits (s : String) : Int :=
  ((s.toList.foldl (fun n c => n * 10 + (c.toNat - 48)) 0 : Nat) : Int)

/-- JS template interpolation of a possibly-undefined string. -/
def optStr (o : Option String) : String := o.getD "undefined"

/-- Letter list of `columnIndexToLetter` for a non-negative index, mirroring
the source's while loop (prepend `chr(65 + n % 26)`, continue with
`n / 26 - 1` while non-negative).  Structural recursion on a fuel argument so
that the definition computes by reduction; `n + 1` fuel always suffices
because the loop value strictly decreases. -/
def columnLettersFuel : Nat → Nat → List Char
  | 0, _ => []
  | f + 1, n =>
    if n < 26 then [Char.ofNat (65 + n % 26)]
    else columnLettersFuel f (n / 26 - 1) ++ [Char.ofNat (65 + n % 26)]

/-- Letter list of the source's while loop at adequate fuel. -/
def columnLettersAux (n : Nat) : List Char := columnLettersFuel (n + 1) n

/-- Source `columnIndexToLetter` (0 = "A", 25 = "Z", 26 = "AA", ...); for a
negative index the JS loop body never runs and the result is "". -/
def columnIndexToLetter (index : Int) : String :=
  if index < 0 then "" else ⟨columnLettersAux index.toNat⟩

/-- Source `letterToColumnIndex`: fold `result * 26 + (charCode - 64)` over
the string, then subtract 1.  Note: no case folding and no ceiling check. -/
def letterToColumnIndex (letter : String) : Int :=
  (letter.toList.foldl (fun r c => r * 26 + ((c.toNat : Int) - 64)) 0) - 1

/-- Loop of the source's `parseColumn`: accumulate, rejecting non-`A-Z`
characters with `-1`. -/
def parseColumnAux : List Char → Int → Option Int
  | [], r => some r
  | c :: cs, r =>
    if c.toNat < 65 ∨ 90 < c.toNat then none
    else parseColumnAux cs (r * 26 + ((c.toNat : Int) - 64))

/-- Source `parseColumn` (private helper, uppercases its input and enforces
the `ZZ` = 702 ceiling; note that nothing in the service ever calls it). -/
def parseColumn (colStr : String) : Int :=
  match parseColumnAux (jsToUpper colStr).toList 0 with
  | none => -1
  | some r => if r > 702 then -1 else r - 1

/-- Source `generateColumnHeaders`: letters for indices `0 ..< count`. -/
def generateColumnHeaders (count : Int) : List String :=
  (List.range count.toNat).map (fun (i : Nat) => columnIndexToLetter (i : Int))

/-- Source constant `MAX_ROWS`. -/
def MAX_ROWS : Int := 100

/-- Source constant `INITIAL_ROWS`. -/
def INITIAL_ROWS : Int := 100

/-- Cell format record (always the default in every write path). -/
structure CellFormat where
  bold : Bool
  italic : Bool
  color : String
  backgroundColor : String
deriving DecidableEq, Repr

/-- The format object every write in the source constructs. -/
def defaultFormat : CellFormat :=
  { bold := false, italic := false, color := "#000000", backgroundColor := "#ffffff" }

/-- Source `SpreadsheetCell`. -/
structure SpreadsheetCell where
  row : Int
  col : Int
  value : String
  format : CellFormat
deriving DecidableEq, Repr

/-- Source `SpreadsheetState`. -/
structure SpreadsheetState where
  cells : List SpreadsheetCell
  rows : Int
  columns : Int
  headers : List String
deriving DecidableEq, Repr

/-- Tag of the source's `ParsedCommand.type` union. -/
inductive CommandType where
  | SINGLE
  | RANGE
  | HEADER_RENAME
deriving DecidableEq, Repr

/-- Source `ParsedCommand` interface, optional fields and all. -/
structure ParsedCommand where
  type : CommandType
  cell : Option String := none
  col : Option Int := none
  row : Option Int := none
  startCell : Option String := none
  endCell : Option String := none
  startCol : Option Int := none
  startRow : Option Int := none
  endCol : Option Int := none
  endRow : Option Int := none
  value : String
  originalCommand : String
deriving DecidableEq, Repr

/-- Modelled from the spec: `CustomError` lives in
src/backend/src/middleware/errorHandler.ts, which is not part of the snapshot;
per the spec it is "a validation error with a human-readable message and a
400-equivalent classification", i.e. a message plus an HTTP status code. -/
structure CustomError where
  message : String
  statusCode : Int
deriving DecidableEq, Repr

/-- Coordinate target of an action event. -/
structure EventTarget where
  row : Int
  col : Int
deriving DecidableEq, Repr

/-- Untyped `data` payload of an action event: the union of the fields the
source's object literals use (absent fields are `none`). -/
structure ActionData where
  value : Option String := none
  range : Option String := none
  cellsUpdated : Option Int := none
  message : Option String := none
  oldHeader : Option String := none
  newHeader : Option String := none
deriving DecidableEq, Repr

/-- Source `ActionEvent` (minus `id`/`timestamp`, see the header comment). -/
structure ActionEvent where
  action : String
  target : EventTarget
  data : ActionData
  message : String
deriving DecidableEq, Repr

/-- Cell payload of a state event. -/
structure StateCellData where
  row : Int
  col : Int
  value : String
deriving DecidableEq, Repr

/-- Source `StateEvent` (minus `id`/`timestamp`). -/
structure StateEvent where
  type : String
  cellData : StateCellData
deriving DecidableEq, Repr

/-- Source `UserEvent` (minus `id`/`timestamp`). -/
structure UserEvent where
  message : String
  userId : String
  sessionId : String
deriving DecidableEq, Repr

/-- The private fields of the source's `SpreadsheetDataStore`. -/
structure SpreadsheetDataStore where
  userEvents : List UserEvent
  actionEvents : List ActionEvent
  stateEvents : List StateEvent
  spreadsheetState : SpreadsheetState
deriving DecidableEq, Repr

/-- Return record of a successful `processUserMessage`. -/
structure ProcessResult where
  userEvent : UserEvent
  actionEvent : ActionEvent
  stateEvent : StateEvent
  parsedCommand : ParsedCommand
deriving DecidableEq, Repr

/-- Source `parseCommand` (method of `SpreadsheetDataStore`; reads
`this.spreadsheetState.columns` in the rename branch, hence the state
argument).  Thrown `CustomError`s become the `Except` error component. -/
def parseCommand (state : SpreadsheetState) (message : String) :
    Except CustomError ParsedCommand :=
  let trimmedMessage := jsTrim message
  let parts := splitWs trimmedMessage
  if parts.length < 2 then
    .error ⟨"Invalid command format. Use: <cell> <value> or <range> <value>", 400⟩
  else
    match matchRename trimmedMessage with
    | some (lettersGroup, nameGroup) =>
      let columnLetter := jsToUpper lettersGroup
      let newName := jsTrim nameGroup
      let colIndex := letterToColumnIndex columnLetter
      if colIndex < 0 ∨ state.columns ≤ colIndex then
        .error ⟨"Invalid column: " ++ columnLetter, 400⟩
      else
        .ok { type := .HEADER_RENAME, col := some colIndex, value := newName,
              originalCommand := trimmedMessage }
    | none =>
      let cellOrRange := jsToUpper (parts.headD "")
      let value := String.intercalate " " (parts.drop 1)
      match matchRange cellOrRange with
      | some (startColS, startRowS, endCellS) =>
        let startCell := startColS ++ startRowS
        match matchOptLettersDigits endCellS with
        | none => .error ⟨"Invalid range format", 400⟩
        | some (endColS, endRowS) =>
          let startColIndex := letterToColumnIndex startColS
          let startRowIndex := parseIntDigits startRowS
          let endColIndex := if endColS.isEmpty then startColIndex
                             else letterToColumnIndex endColS
          let endRowIndex := parseIntDigits endRowS
          .ok { type := .RANGE, startCell := some startCell, endCell := some endCellS,
                startCol := some startColIndex, startRow := some startRowIndex,
                endCol := some endColIndex, endRow := some endRowIndex,
                value := value, originalCommand := trimmedMessage }
      | none =>
        match matchLettersDigits cellOrRange with
        | none => .error ⟨"Invalid cell format. Use: A1, B5, etc.", 400⟩
        | some (columnS, rowS) =>
          let colIndex := letterToColumnIndex columnS
          let rowIndex := parseIntDigits rowS
          if rowIndex < 1 then
            .error ⟨"Row number must be at least 1", 400⟩
          else
            .ok { type := .SINGLE, cell := some cellOrRange, col := some colIndex,
                  row := some rowIndex, value := value, originalCommand := trimmedMessage }

/-- The `findIndex`-then-replace-or-push idiom both cell-update branches use:
replace the first cell with the target coordinates, else push at the end. -/
def upsertCell (cells : List SpreadsheetCell) (rowIndex col : Int)
    (cellData : SpreadsheetCell) : List SpreadsheetCell :=
  match cells.findIdx? (fun cell => cell.row == rowIndex && cell.col == col) with
  | some i => cells.set i cellData
  | none => cells ++ [cellData]

/-- The row/column auto-expansion both cell-update branches perform before a
write: `newRows`/`newColumns` are computed from the current state, then each
is installed only if strictly larger (headers are regenerated on column
growth). -/
def expandForCell (grid : SpreadsheetState) (row col : Int) : SpreadsheetState :=
  let newRows := min (max grid.rows row) MAX_ROWS
  let newColumns := max grid.columns (col + 1)
  let grid1 := if newRows > grid.rows then { grid with rows := newRows } else grid
  if newColumns > grid1.columns then
    { grid1 with columns := newColumns, headers := generateColumnHeaders newColumns }
  else grid1

/-- Body of the source's RANGE double loop for one `(row, col)` pair:
expand, then upsert the cell (1-based row converted to 0-based), and record
it in `cellsUpdated`. -/
def rangeCellStep (value : String) (acc : SpreadsheetState × List SpreadsheetCell)
    (row col : Int) : SpreadsheetState × List SpreadsheetCell :=
  let grid := expandForCell acc.1 row col
  let rowIndex := row - 1
  let cellData : SpreadsheetCell :=
    { row := rowIndex, col := col, value := value, format := defaultFormat }
  ({ grid with cells := upsertCell grid.cells rowIndex col cellData },
   acc.2 ++ [cellData])

/-- Inclusive integer interval `lo, lo+1, ..., hi` of a JS
`for (let i = lo; i <= hi; i++)` loop (empty when `hi < lo`). -/
def intRangeList (lo hi : Int) : List Int :=
  (List.range (hi + 1 - lo).toNat).map (fun (i : Nat) => lo + (i : Int))

/-- The source's RANGE double loop: rows outer, columns inner, accumulating
the grid and the `cellsUpdated` list. -/
def rangeLoop (value : String) (startRow endRow startCol endCol : Int)
    (grid : SpreadsheetState) : SpreadsheetState × List SpreadsheetCell :=
  (intRangeList startRow endRow).foldl
    (fun acc row =>
      (intRangeList startCol endCol).foldl
        (fun acc col => rangeCellStep value acc row col) acc)
    (grid, [])

/-- Dispatch on the parsed command (the branch cascade of
`processUserMessage` after parsing): grid mutation plus the action/state
events of the taken branch.  Throws (`Except.error`) occur before any grid
mutation of their branch, as in the source.  The `Option.getD 0` reads mirror
the source's non-null assertions (`parsedCommand.startRow!` etc.); the final
branch is the source's `else` "general message" arm. -/
def applyParsed (grid : SpreadsheetState) (cmd : ParsedCommand) :
    Except CustomError (SpreadsheetState × ActionEvent × StateEvent) :=
  if cmd.type = .SINGLE ∧ cmd.row.isSome ∧ cmd.col.isSome then
    let row := cmd.row.getD 0
    let col := cmd.col.getD 0
    let rowIndex := row - 1
    let grid1 := expandForCell grid row col
    let cellData : SpreadsheetCell :=
      { row := rowIndex, col := col, value := cmd.value, format := defaultFormat }
    let grid2 := { grid1 with cells := upsertCell grid1.cells rowIndex col cellData }
    .ok (grid2,
      { action := "UPDATE_CELL", target := { row := rowIndex, col := col },
        data := { value := some cmd.value },
        message := "Updated cell " ++ optStr cmd.cell },
      { type := "CELL_UPDATE",
        cellData := { row := rowIndex, col := col, value := cmd.value } })
  else if cmd.type = .RANGE then
    let startRow := cmd.startRow.getD 0
    let endRow := cmd.endRow.getD 0
    let startCol := cmd.startCol.getD 0
    let endCol := cmd.endCol.getD 0
    let result := rangeLoop cmd.value startRow endRow startCol endCol grid
    let cellsUpdated := result.2
    .ok (result.1,
      { action := "UPDATE_CELL", target := { row := startRow, col := startCol },
        data := { value := some cmd.value,
                  range := some (optStr cmd.startCell ++ "-" ++ optStr cmd.endCell),
                  cellsUpdated := some (cellsUpdated.length : Int) },
        message := "Updated range " ++ optStr cmd.startCell ++ "-" ++ optStr cmd.endCell
          ++ " with \"" ++ cmd.value ++ "\" (" ++ toString cellsUpdated.length
          ++ " cells)" },
      { type := "CELL_UPDATE",
        cellData := { row := startRow, col := startCol, value := cmd.value } })
  else if cmd.type = .HEADER_RENAME then
    let colIndex := cmd.col.getD 0
    let newName := cmd.value
    if colIndex < 0 ∨ grid.columns ≤ colIndex then
      .error ⟨"Invalid column index for header rename: " ++ toString colIndex, 400⟩
    else
      let oldHeader := grid.headers.getD colIndex.toNat "undefined"
      .ok ({ grid with headers := grid.headers.set colIndex.toNat newName },
        { action := "HEADER_RENAME", target := { row := -1, col := colIndex },
          data := { oldHeader := some oldHeader, newHeader := some newName },
          message := "Header renamed from \"" ++ oldHeader ++ "\" to \"" ++ newName
            ++ "\"" },
        { type := "HEADER_RENAME",
          cellData := { row := -1, col := colIndex, value := newName } })
  else
    .ok (grid,
      { action := "GENERAL_MESSAGE", target := { row := -1, col := -1 },
        data := { message := some cmd.value },
        message := "Message: " ++ cmd.value },
      { type := "CELL_UPDATE",
        cellData := { row := -1, col := -1, value := cmd.value } })

/-- Source `processUserMessage`.  The user event is pushed before parsing (so
it survives a failure); the whole body runs under a `try`/`catch` whose catch
rethrows every error as `CustomError('Failed to process user message', 500)`.
Returns the post-call store together with the result or that wrapped error. -/
def processUserMessage (message : String) (userId sessionId : Option String)
    (store : SpreadsheetDataStore) :
    SpreadsheetDataStore × Except CustomError ProcessResult :=
  let userEvent : UserEvent :=
    { message := message, userId := userId.getD "anonymous",
      sessionId := sessionId.getD "default" }
  let store1 := { store with userEvents := store.userEvents ++ [userEvent] }
  match parseCommand store1.spreadsheetState message with
  | .error _ => (store1, .error ⟨"Failed to process user message", 500⟩)
  | .ok parsedCommand =>
    match applyParsed store1.spreadsheetState parsedCommand with
    | .error _ => (store1, .error ⟨"Failed to process user message", 500⟩)
    | .ok (grid, actionEvent, stateEvent) =>
      ({ store1 with
          spreadsheetState := grid,
          actionEvents := store1.actionEvents ++ [actionEvent],
          stateEvents := store1.stateEvents ++ [stateEvent] },
       .ok { userEvent := userEvent, actionEvent := actionEvent,
             stateEvent := stateEvent, parsedCommand := parsedCommand })

/-- The mock cells the store's constructor creates: rows 0..99 by columns
0..9, outer row loop, inner column loop. -/
def mockCells : List SpreadsheetCell :=
  ((List.range 100).map (fun row =>
    (List.range 10).map (fun col =>
      ({ row := (row : Int), col := (col : Int),
         value := "Row " ++ toString (row + 1) ++ " Col " ++ columnIndexToLetter (col : Int),
         format := defaultFormat } : SpreadsheetCell)))).flatten

/-- The singleton store as constructed at module load (grid of
`INITIAL_ROWS` rows and 26 columns with A–Z headers, the mock cells, and one
mock action and state event). -/
def initialDataStore : SpreadsheetDataStore :=
  { userEvents := [],
    actionEvents := [{ action := "UPDATE_CELL", target := { row := 0, col := 0 },
                       data := { value := some "Sample Data" },
                       message := "Updated cell A1" }],
    stateEvents := [{ type := "CELL_UPDATE",
                      cellData := { row := 0, col := 0, value := "Sample Data" } }],
    spreadsheetState := { cells := mockCells, rows := INITIAL_ROWS, columns := 26,
                          headers := generateColumnHeaders 26 } }

/-- Observation function for stating properties: the first cell stored at a
coordinate (the one every read and write path targets). -/
def lookupCells (cells : List SpreadsheetCell) (r c : Int) : Option SpreadsheetCell :=
  cells.find? (fun cell => cell.row == r && cell.col == c)

/-- Fold a sequence of `apply` calls over a store, keeping the state each
call leaves behind (results are discarded). -/
def applyAll (msgs : List String) (store : SpreadsheetDataStore) : SpreadsheetDataStore :=
  msgs.foldl (fun s m => (processUserMessage m none none s).1) store

/-- Recursive characterization of the findIndex-then-set-or-push idiom:
replace the first cell with the target key, else append at the end. -/
def upsertCellRec : List SpreadsheetCell → Int → Int → SpreadsheetCell → List SpreadsheetCell
  | [], _, _, d => [d]
  | x :: xs, r, c, d =>
    if x.row == r && x.col == c then d :: xs else x :: upsertCellRec xs r c d

theorem upsertCell_eq_rec (cells : List SpreadsheetCell) (r c : Int) (d : SpreadsheetCell) :
    upsertCell cells r c d = upsertCellRec cells r c d := by
  induction cells with
  | nil => rfl
  | cons x xs ih =>
    simp only [upsertCell, List.findIdx?_cons, upsertCellRec]
    by_cases hx : (x.row == r && x.col == c) = true
    · simp [hx]
    · simp only [hx, ite_false, Bool.false_eq_true, if_false]
      cases h2 : List.findIdx? (fun cell => cell.row == r && cell.col == c) xs with
      | none =>
        rw [← ih]
        simp [upsertCell, h2]
      | some i =>
        rw [← ih]
        simp [upsertCell, h2]

theorem lookupCells_upsertCell_self (cells : List SpreadsheetCell) (r c : Int)
    (d : SpreadsheetCell) (hr : d.row = r) (hc : d.col = c) :
    lookupCells (upsertCell cells r c d) r c = some d := by
  rw [upsertCell_eq_rec]
  induction cells with
  | nil => simp [upsertCellRec, lookupCells, hr, hc]
  | cons x xs ih =>
    simp only [upsertCellRec]
    by_cases hx : (x.row == r && x.col == c) = true
    · simp [hx, lookupCells, hr, hc]
    · simp only [hx, Bool.false_eq_true, if_false]
      simp only [lookupCells, List.find?_cons, hx] at ih ⊢
      simpa [hx] using ih

theorem lookupCells_upsertCell_other (cells : List SpreadsheetCell) (r c x0 y0 : Int)
    (d : SpreadsheetCell) (hr : d.row = r) (hc : d.col = c)
    (h : ¬(x0 = r ∧ y0 = c)) :
    lookupCells (upsertCell cells r c d) x0 y0 = lookupCells cells x0 y0 := by
  rw [upsertCell_eq_rec]
  have hd : (d.row == x0 && d.col == y0) = false := by
    rcases Decidable.not_and_iff_or_not.mp h with h1 | h1 <;>
      simp [hr, hc, Bool.and_eq_false_iff] <;> omega
  induction cells with
  | nil => simp [upsertCellRec, lookupCells, hd]
  | cons x xs ih =>
    simp only [upsertCellRec]
    by_cases hx : (x.row == r && x.col == c) = true
    · have hxk : (x.row == x0 && x.col == y0) = false := by
        have hx1 : x.row = r := by
          have := (Bool.and_eq_true _ _).mp hx
          exact beq_iff_eq.mp this.1
        have hx2 : x.col = c := by
          have := (Bool.and_eq_true _ _).mp hx
          exact beq_iff_eq.mp this.2
        rcases Decidable.not_and_iff_or_not.mp h with h1 | h1 <;>
          simp [hx1, hx2, Bool.and_eq_false_iff] <;> omega
      simp [hx, lookupCells, hd, hxk]
    · simp only [hx, Bool.false_eq_true, if_false]
      simp only [lookupCells, List.find?_cons] at ih ⊢
      cases hxk : (x.row == x0 && x.col == y0) <;> simp [hxk] at ih ⊢ <;> exact ih

theorem mem_upsertCell (cells : List SpreadsheetCell) (r c : Int) (d : SpreadsheetCell) :
    d ∈ upsertCell cells r c d := by
  rw [upsertCell_eq_rec]
  induction cells with
  | nil => simp [upsertCellRec]
  | cons x xs ih =>
    simp only [upsertCellRec]
    by_cases hx : (x.row == r && x.col == c) = true
    · simp [hx]
    · simp only [hx, Bool.false_eq_true, if_false]
      exact List.mem_cons_of_mem x ih

theorem expandForCell_cells (g : SpreadsheetState) (row col : Int) :
    (expandForCell g row col).cells = g.cells := by
  simp only [expandForCell, MAX_ROWS]
  split <;> split <;> rfl

theorem expandForCell_rows (g : SpreadsheetState) (row col : Int) :
    (expandForCell g row col).rows = max g.rows (min row 100) := by
  simp only [expandForCell, MAX_ROWS]
  split <;> split <;> (try simp) <;> omega

theorem expandForCell_columns (g : SpreadsheetState) (row col : Int) :
    (expandForCell g row col).columns = max g.columns (col + 1) := by
  simp only [expandForCell, MAX_ROWS]
  split <;> split <;> (try simp_all) <;> omega

theorem length_generateColumnHeaders (n : Int) :
    ((generateColumnHeaders n).length : Int) = max n 0 := by
  rw [generateColumnHeaders, List.length_map, List.length_range]
  omega

theorem expandForCell_headers (g : SpreadsheetState) (row col : Int) :
    (expandForCell g row col).headers =
      if max g.columns (col + 1) > g.columns then
        generateColumnHeaders (max g.columns (col + 1))
      else g.headers := by
  simp only [expandForCell, MAX_ROWS]
  split <;> split <;> (try dsimp only) <;> simp_all

theorem expandForCell_headers_length (g : SpreadsheetState) (row col : Int)
    (hcols : 0 ≤ g.columns) (hlen : (g.headers.length : Int) = g.columns) :
    ((expandForCell g row col).headers.length : Int) = (expandForCell g row col).columns := by
  rw [expandForCell_headers, expandForCell_columns]
  split
  · rw [length_generateColumnHeaders]
    omega
  · omega

theorem intRangeList_eq_nil (lo hi : Int) (h : hi < lo) : intRangeList lo hi = [] := by
  unfold intRangeList
  have : (hi + 1 - lo).toNat = 0 := by omega
  rw [this]
  rfl

theorem intRangeList_cons (lo hi : Int) (h : lo ≤ hi) :
    intRangeList lo hi = lo :: intRangeList (lo + 1) hi := by
  unfold intRangeList
  have h1 : (hi + 1 - lo).toNat = (hi + 1 - (lo + 1)).toNat + 1 := by omega
  rw [h1, List.range_succ_eq_map]
  simp only [List.map_cons, List.map_map, Nat.cast_zero, add_zero]
  congr 1
  apply List.map_congr_left
  intro a _
  simp only [Function.comp_apply]
  push_cast
  omega

theorem intRangeList_self (c : Int) : intRangeList c c = [c] := by
  rw [intRangeList_cons c c le_rfl, intRangeList_eq_nil (c + 1) c (by omega)]

theorem mem_intRangeList (y lo hi : Int) : y ∈ intRangeList lo hi ↔ lo ≤ y ∧ y ≤ hi := by
  unfold intRangeList
  simp only [List.mem_map, List.mem_range]
  constructor
  · rintro ⟨i, hi2, rfl⟩
    omega
  · rintro ⟨h1, h2⟩
    refine ⟨(y - lo).toNat, by omega, by omega⟩

theorem length_intRangeList (lo hi : Int) :
    (intRangeList lo hi).length = (hi + 1 - lo).toNat := by
  unfold intRangeList
  rw [List.length_map, List.length_range]

theorem rangeCellStep_rows (v : String) (acc : SpreadsheetState × List SpreadsheetCell)
    (row col : Int) :
    ((rangeCellStep v acc row col).1).rows = max acc.1.rows (min row 100) := by
  simp only [rangeCellStep]
  exact expandForCell_rows acc.1 row col

theorem rangeCellStep_columns (v : String) (acc : SpreadsheetState × List SpreadsheetCell)
    (row col : Int) :
    ((rangeCellStep v acc row col).1).columns = max acc.1.columns (col + 1) := by
  simp only [rangeCellStep]
  exact expandForCell_columns acc.1 row col

theorem rangeCellStep_cells (v : String) (acc : SpreadsheetState × List SpreadsheetCell)
    (row col : Int) :
    ((rangeCellStep v acc row col).1).cells =
      upsertCell acc.1.cells (row - 1) col
        { row := row - 1, col := col, value := v, format := defaultFormat } := by
  simp only [rangeCellStep]
  rw [expandForCell_cells]

theorem rangeCellStep_snd (v : String) (acc : SpreadsheetState × List SpreadsheetCell)
    (row col : Int) :
    (rangeCellStep v acc row col).2 =
      acc.2 ++ [{ row := row - 1, col := col, value := v, format := defaultFormat }] := by
  simp only [rangeCellStep]

theorem rangeLoop_single_col (v : String) (a b c : Int) (g : SpreadsheetState) :
    rangeLoop v a b c c g =
      (intRangeList a b).foldl (fun acc row => rangeCellStep v acc row c) (g, []) := by
  unfold rangeLoop
  simp only [intRangeList_self, List.foldl_cons, List.foldl_nil]

theorem foldl_rangeCellStep_rows (v : String) (c : Int) (L : List Int) :
    ∀ acc : SpreadsheetState × List SpreadsheetCell,
      ((L.foldl (fun acc row => rangeCellStep v acc row c) acc).1).rows =
        L.foldl (fun r row => max r (min row 100)) acc.1.rows := by
  induction L with
  | nil => intro acc; rfl
  | cons r L ih =>
    intro acc
    simp only [List.foldl_cons]
    rw [ih]
    rw [rangeCellStep_rows]

theorem foldl_rangeCellStep_snd_length (v : String) (c : Int) (L : List Int) :
    ∀ acc : SpreadsheetState × List SpreadsheetCell,
      ((L.foldl (fun acc row => rangeCellStep v acc row c) acc).2).length =
        acc.2.length + L.length := by
  induction L with
  | nil => intro acc; simp
  | cons r L ih =>
    intro acc
    simp only [List.foldl_cons]
    rw [ih, rangeCellStep_snd]
    simp
    omega

theorem foldl_max_min_intRange (b : Int) (hb : b ≤ 100) :
    ∀ n : Nat, ∀ a r0 : Int, a ≤ b → (b - a).toNat = n →
      (intRangeList a b).foldl (fun r row => max r (min row 100)) r0 = max r0 b := by
  intro n
  induction n with
  | zero =>
    intro a r0 hab hn
    have hane : a = b := by omega
    subst hane
    rw [intRangeList_self]
    simp only [List.foldl_cons, List.foldl_nil]
    omega
  | succ m ih =>
    intro a r0 hab hn
    rw [intRangeList_cons a b hab]
    simp only [List.foldl_cons]
    rw [ih (a + 1) _ (by omega) (by omega)]
    omega

theorem foldl_rangeCellStep_lookup (v : String) (c : Int) (L : List Int) :
    ∀ (acc : SpreadsheetState × List SpreadsheetCell) (x : Int),
      lookupCells ((L.foldl (fun acc row => rangeCellStep v acc row c) acc).1).cells x c =
        if x + 1 ∈ L then some { row := x, col := c, value := v, format := defaultFormat }
        else lookupCells acc.1.cells x c := by
  induction L with
  | nil => intro acc x; simp
  | cons r L ih =>
    intro acc x
    simp only [List.foldl_cons]
    rw [ih]
    by_cases hmem : x + 1 ∈ L
    · simp [hmem]
    · by_cases hx : x = r - 1
      · subst hx
        have hcond : (r - 1) + 1 ∈ r :: L := by
          simp only [List.mem_cons]
          left
          omega
        simp only [hmem, if_false, hcond, if_true]
        rw [rangeCellStep_cells]
        exact lookupCells_upsertCell_self _ _ _ _ rfl rfl
      · have hcond : ¬(x + 1 ∈ r :: L) := by
          simp only [List.mem_cons]
          push_neg
          exact ⟨by omega, hmem⟩
        simp only [hmem, if_false, hcond]
        rw [rangeCellStep_cells]
        exact lookupCells_upsertCell_other _ _ _ _ _ _ rfl rfl (by
          intro hcontra
          exact hx hcontra.1)

theorem processUserMessage_error_parts (m : String) (u v : Option String)
    (s : SpreadsheetDataStore) (e : CustomError)
    (hp : parseCommand s.spreadsheetState m = .error e) :
    processUserMessage m u v s =
      ({ s with userEvents := s.userEvents ++
          [{ message := m, userId := u.getD "anonymous", sessionId := v.getD "default" }] },
       .error ⟨"Failed to process user message", 500⟩) := by
  unfold processUserMessage
  simp [hp]

theorem processUserMessage_apply_error_parts (m : String) (u v : Option String)
    (s : SpreadsheetDataStore) (cmd : ParsedCommand) (e : CustomError)
    (hp : parseCommand s.spreadsheetState m = .ok cmd)
    (hap : applyParsed s.spreadsheetState cmd = .error e) :
    processUserMessage m u v s =
      ({ s with userEvents := s.userEvents ++
          [{ message := m, userId := u.getD "anonymous", sessionId := v.getD "default" }] },
       .error ⟨"Failed to process user message", 500⟩) := by
  unfold processUserMessage
  simp [hp, hap]

theorem processUserMessage_ok_parts (m : String) (u v : Option String)
    (s : SpreadsheetDataStore) (cmd : ParsedCommand) (g' : SpreadsheetState)
    (ae : ActionEvent) (se : StateEvent)
    (hp : parseCommand s.spreadsheetState m = .ok cmd)
    (hap : applyParsed s.spreadsheetState cmd = .ok (g', ae, se)) :
    processUserMessage m u v s =
      ({ s with
          userEvents := s.userEvents ++
            [{ message := m, userId := u.getD "anonymous", sessionId := v.getD "default" }],
          spreadsheetState := g',
          actionEvents := s.actionEvents ++ [ae],
          stateEvents := s.stateEvents ++ [se] },
       .ok { userEvent := { message := m, userId := u.getD "anonymous",
                            sessionId := v.getD "default" },
             actionEvent := ae, stateEvent := se, parsedCommand := cmd }) := by
  unfold processUserMessage
  simp [hp, hap]

theorem processUserMessage_error_cases (m : String) (u v : Option String)
    (s : SpreadsheetDataStore) (e : CustomError)
    (h : (processUserMessage m u v s).2 = .error e) :
    (processUserMessage m u v s).1 =
      { s with userEvents := s.userEvents ++
          [{ message := m, userId := u.getD "anonymous", sessionId := v.getD "default" }] } := by
  cases hp : parseCommand s.spreadsheetState m with
  | error e2 => rw [processUserMessage_error_parts m u v s e2 hp]
  | ok cmd =>
    cases hap : applyParsed s.spreadsheetState cmd with
    | error e2 => rw [processUserMessage_apply_error_parts m u v s cmd e2 hp hap]
    | ok triple =>
      obtain ⟨g', ae, se⟩ := triple
      rw [processUserMessage_ok_parts m u v s cmd g' ae se hp hap] at h
      simp at h

theorem rangeCellStep_headers (v : String) (acc : SpreadsheetState × List SpreadsheetCell)
    (row col : Int) :
    ((rangeCellStep v acc row col).1).headers = (expandForCell acc.1 row col).headers := by
  simp only [rangeCellStep]

theorem expandForCell_growth (g : SpreadsheetState) (row col : Int)
    (hc0 : 0 ≤ g.columns) (hlen : (g.headers.length : Int) = g.columns)
    (hr100 : g.rows ≤ 100) :
    g.rows ≤ (expandForCell g row col).rows ∧ (expandForCell g row col).rows ≤ 100 ∧
    g.columns ≤ (expandForCell g row col).columns ∧ 0 ≤ (expandForCell g row col).columns ∧
    ((expandForCell g row col).headers.length : Int) = (expandForCell g row col).columns := by
  refine ⟨?_, ?_, ?_, ?_, expandForCell_headers_length g row col hc0 hlen⟩ <;>
    simp only [expandForCell_rows, expandForCell_columns] <;> omega

theorem rangeCellStep_growth (v : String) (acc : SpreadsheetState × List SpreadsheetCell)
    (row col : Int)
    (hc0 : 0 ≤ acc.1.columns) (hlen : (acc.1.headers.length : Int) = acc.1.columns)
    (hr100 : acc.1.rows ≤ 100) :
    acc.1.rows ≤ ((rangeCellStep v acc row col).1).rows ∧
    ((rangeCellStep v acc row col).1).rows ≤ 100 ∧
    acc.1.columns ≤ ((rangeCellStep v acc row col).1).columns ∧
    0 ≤ ((rangeCellStep v acc row col).1).columns ∧
    ((((rangeCellStep v acc row col).1).headers.length : Int) =
      ((rangeCellStep v acc row col).1).columns) := by
  rw [rangeCellStep_rows, rangeCellStep_columns, rangeCellStep_headers]
  have h := expandForCell_growth acc.1 row col hc0 hlen hr100
  rw [expandForCell_rows, expandForCell_columns] at h
  have h2 : ((expandForCell acc.1 row col).headers.length : Int) =
      max acc.1.columns (col + 1) := by
    rw [h.2.2.2.2]
  refine ⟨by omega, by omega, by omega, by omega, h2⟩

theorem foldl_cols_growth (v : String) (row : Int) (cols : List Int) :
    ∀ acc : SpreadsheetState × List SpreadsheetCell,
      0 ≤ acc.1.columns → (acc.1.headers.length : Int) = acc.1.columns →
      acc.1.rows ≤ 100 →
      acc.1.rows ≤ ((cols.foldl (fun a col => rangeCellStep v a row col) acc).1).rows ∧
      ((cols.foldl (fun a col => rangeCellStep v a row col) acc).1).rows ≤ 100 ∧
      acc.1.columns ≤ ((cols.foldl (fun a col => rangeCellStep v a row col) acc).1).columns ∧
      0 ≤ ((cols.foldl (fun a col => rangeCellStep v a row col) acc).1).columns ∧
      ((((cols.foldl (fun a col => rangeCellStep v a row col) acc).1).headers.length : Int) =
        ((cols.foldl (fun a col => rangeCellStep v a row col) acc).1).columns) := by
  induction cols with
  | nil =>
    intro acc hc0 hlen hr100
    exact ⟨le_refl _, hr100, le_refl _, hc0, hlen⟩
  | cons c cols ih =>
    intro acc hc0 hlen hr100
    simp only [List.foldl_cons]
    have hstep := rangeCellStep_growth v acc row c hc0 hlen hr100
    have hrest := ih (rangeCellStep v acc row c) (by omega) hstep.2.2.2.2 (by omega)
    refine ⟨by omega, by omega, by omega, by omega, hrest.2.2.2.2⟩

theorem foldl_rows_growth (v : String) (cols : List Int) (rows : List Int) :
    ∀ acc : SpreadsheetState × List SpreadsheetCell,
      0 ≤ acc.1.columns → (acc.1.headers.length : Int) = acc.1.columns →
      acc.1.rows ≤ 100 →
      acc.1.rows ≤ ((rows.foldl
        (fun a row => cols.foldl (fun a col => rangeCellStep v a row col) a) acc).1).rows ∧
      ((rows.foldl
        (fun a row => cols.foldl (fun a col => rangeCellStep v a row col) a) acc).1).rows ≤ 100 ∧
      acc.1.columns ≤ ((rows.foldl
        (fun a row => cols.foldl (fun a col => rangeCellStep v a row col) a) acc).1).columns ∧
      0 ≤ ((rows.foldl
        (fun a row => cols.foldl (fun a col => rangeCellStep v a row col) a) acc).1).columns ∧
      ((((rows.foldl
        (fun a row => cols.foldl (fun a col => rangeCellStep v a row col) a) acc).1).headers.length : Int) =
        ((rows.foldl
          (fun a row => cols.foldl (fun a col => rangeCellStep v a row col) a) acc).1).columns) := by
  induction rows with
  | nil =>
    intro acc hc0 hlen hr100
    exact ⟨le_refl _, hr100, le_refl _, hc0, hlen⟩
  | cons r rows ih =>
    intro acc hc0 hlen hr100
    simp only [List.foldl_cons]
    have hstep := foldl_cols_growth v r cols acc hc0 hlen hr100
    have hrest := ih (cols.foldl (fun a col => rangeCellStep v a r col) acc)
      (by omega) hstep.2.2.2.2 (by omega)
    refine ⟨by omega, by omega, by omega, by omega, hrest.2.2.2.2⟩

theorem applyParsed_grid_growth (g : SpreadsheetState) (cmd : ParsedCommand)
    (g' : SpreadsheetState) (ae : ActionEvent) (se : StateEvent)
    (h : applyParsed g cmd = .ok (g', ae, se))
    (hc0 : 0 ≤ g.columns) (hlen : (g.headers.length : Int) = g.columns)
    (hr100 : g.rows ≤ 100) :
    g.rows ≤ g'.rows ∧ g'.rows ≤ 100 ∧ g.columns ≤ g'.columns ∧ 0 ≤ g'.columns ∧
    ((g'.headers.length : Int) = g'.columns) := by
  unfold applyParsed at h
  split at h
  · -- SINGLE branch
    simp only [Except.ok.injEq, Prod.mk.injEq] at h
    obtain ⟨h1, -, -⟩ := h
    subst h1
    have hg := expandForCell_growth g (cmd.row.getD 0) (cmd.col.getD 0) hc0 hlen hr100
    exact hg
  · split at h
    · -- RANGE branch
      simp only [Except.ok.injEq, Prod.mk.injEq] at h
      obtain ⟨h1, -, -⟩ := h
      subst h1
      unfold rangeLoop
      have := foldl_rows_growth cmd.value (intRangeList (cmd.startCol.getD 0) (cmd.endCol.getD 0))
        (intRangeList (cmd.startRow.getD 0) (cmd.endRow.getD 0)) (g, []) hc0 hlen hr100
      exact this
    · split at h
      · -- HEADER_RENAME branch
        dsimp only at h
        split at h
        · exact absurd h (by simp)
        · simp only [Except.ok.injEq, Prod.mk.injEq] at h
          obtain ⟨h1, -, -⟩ := h
          subst h1
          simp only [List.length_set]
          exact ⟨le_refl _, hr100, le_refl _, hc0, hlen⟩
      · -- general-message branch
        simp only [Except.ok.injEq, Prod.mk.injEq] at h
        obtain ⟨h1, -, -⟩ := h
        subst h1
        exact ⟨le_refl _, hr100, le_refl _, hc0, hlen⟩

theorem processUserMessage_grid_growth (m : String) (u v : Option String)
    (s : SpreadsheetDataStore)
    (hc0 : 0 ≤ s.spreadsheetState.columns)
    (hlen : (s.spreadsheetState.headers.length : Int) = s.spreadsheetState.columns)
    (hr100 : s.spreadsheetState.rows ≤ 100) :
    s.spreadsheetState.rows ≤ (processUserMessage m u v s).1.spreadsheetState.rows ∧
    (processUserMessage m u v s).1.spreadsheetState.rows ≤ 100 ∧
    s.spreadsheetState.columns ≤ (processUserMessage m u v s).1.spreadsheetState.columns ∧
    0 ≤ (processUserMessage m u v s).1.spreadsheetState.columns ∧
    (((processUserMessage m u v s).1.spreadsheetState.headers.length : Int) =
      (processUserMessage m u v s).1.spreadsheetState.columns) := by
  cases hp : parseCommand s.spreadsheetState m with
  | error e =>
    rw [processUserMessage_error_parts m u v s e hp]
    exact ⟨le_refl _, hr100, le_refl _, hc0, hlen⟩
  | ok cmd =>
    cases hap : applyParsed s.spreadsheetState cmd with
    | error e =>
      rw [processUserMessage_apply_error_parts m u v s cmd e hp hap]
      exact ⟨le_refl _, hr100, le_refl _, hc0, hlen⟩
    | ok triple =>
      obtain ⟨g', ae, se⟩ := triple
      rw [processUserMessage_ok_parts m u v s cmd g' ae se hp hap]
      exact applyParsed_grid_growth s.spreadsheetState cmd g' ae se hap hc0 hlen hr100

theorem parseCommand_congr (m : String) (g1 g2 : SpreadsheetState)
    (hcols : g1.columns = g2.columns) :
    parseCommand g1 m = parseCommand g2 m := by
  unfold parseCommand
  rw [hcols]

theorem processUserMessage_visible_congr (m : String) (u v : Option String)
    (s1 s2 : SpreadsheetDataStore)
    (hg : s1.spreadsheetState = s2.spreadsheetState)
    (ha : s1.actionEvents = s2.actionEvents)
    (hs : s1.stateEvents = s2.stateEvents) :
    (processUserMessage m u v s1).1.spreadsheetState =
      (processUserMessage m u v s2).1.spreadsheetState ∧
    (processUserMessage m u v s1).1.actionEvents =
      (processUserMessage m u v s2).1.actionEvents ∧
    (processUserMessage m u v s1).1.stateEvents =
      (processUserMessage m u v s2).1.stateEvents ∧
    (processUserMessage m u v s1).2 = (processUserMessage m u v s2).2 := by
  cases hp : parseCommand s2.spreadsheetState m with
  | error e =>
    have hp1 : parseCommand s1.spreadsheetState m = .error e := by rw [hg]; exact hp
    rw [processUserMessage_error_parts m u v s1 e hp1,
        processUserMessage_error_parts m u v s2 e hp]
    exact ⟨hg, ha, hs, rfl⟩
  | ok cmd =>
    cases hap : applyParsed s2.spreadsheetState cmd with
    | error e =>
      have hp1 : parseCommand s1.spreadsheetState m = .ok cmd := by rw [hg]; exact hp
      have hap1 : applyParsed s1.spreadsheetState cmd = .error e := by rw [hg]; exact hap
      rw [processUserMessage_apply_error_parts m u v s1 cmd e hp1 hap1,
          processUserMessage_apply_error_parts m u v s2 cmd e hp hap]
      exact ⟨hg, ha, hs, rfl⟩
    | ok triple =>
      obtain ⟨g', ae, se⟩ := triple
      have hp1 : parseCommand s1.spreadsheetState m = .ok cmd := by rw [hg]; exact hp
      have hap1 : applyParsed s1.spreadsheetState cmd = .ok (g', ae, se) := by
        rw [hg]; exact hap
      rw [processUserMessage_ok_parts m u v s1 cmd g' ae se hp1 hap1,
          processUserMessage_ok_parts m u v s2 cmd g' ae se hp hap]
      exact ⟨rfl, by simp [ha], by simp [hs], rfl⟩

theorem toNat_ofNat_valid (n : Nat) (h : n < 55296) : (Char.ofNat n).toNat = n := by
  have hv : n.isValidChar := Or.inl h
  simp only [Char.ofNat, hv, dif_pos, Char.ofNatAux, Char.toNat]
  simp [UInt32.toNat, BitVec.toNat_ofNatLt]

theorem columnLettersFuel_irrel (n : Nat) : ∀ f g : Nat, n < f → n < g →
    columnLettersFuel f n = columnLettersFuel g n := by
  induction n using Nat.strong_induction_on with
  | _ n ih =>
    intro f g hf hg
    cases f with
    | zero => omega
    | succ f =>
      cases g with
      | zero => omega
      | succ g =>
        simp only [columnLettersFuel]
        by_cases h26 : n < 26
        · simp [h26]
        · simp only [h26, if_false]
          have hdiv : n / 26 ≤ n := Nat.div_le_self n 26
          congr 1
          exact ih (n / 26 - 1) (by omega) f g (by omega) (by omega)

theorem columnLettersAux_eq (n : Nat) :
    columnLettersAux n =
      if n < 26 then [Char.ofNat (65 + n % 26)]
      else columnLettersAux (n / 26 - 1) ++ [Char.ofNat (65 + n % 26)] := by
  unfold columnLettersAux
  conv_lhs => rw [columnLettersFuel]
  by_cases h26 : n < 26
  · simp [h26]
  · simp only [h26, if_false]
    have hdiv : n / 26 ≤ n := Nat.div_le_self n 26
    congr 1
    exact columnLettersFuel_irrel (n / 26 - 1) n (n / 26 - 1 + 1) (by omega) (by omega)

theorem mem_columnLettersAux (n : Nat) :
    ∀ c ∈ columnLettersAux n, 65 ≤ c.toNat ∧ c.toNat ≤ 90 := by
  induction n using Nat.strong_induction_on with
  | _ n ih =>
    intro c hc
    rw [columnLettersAux_eq] at hc
    have hmod : n % 26 < 26 := Nat.mod_lt n (by omega)
    have hlast : (Char.ofNat (65 + n % 26)).toNat = 65 + n % 26 :=
      toNat_ofNat_valid _ (by omega)
    by_cases h26 : n < 26
    · simp only [h26, if_true, List.mem_singleton] at hc
      subst hc
      omega
    · simp only [h26, if_false, List.mem_append, List.mem_singleton] at hc
      rcases hc with hc | hc
      · have hdiv : n / 26 ≤ n := Nat.div_le_self n 26
        exact ih (n / 26 - 1) (by omega) c hc
      · subst hc
        omega

theorem natFold_columnLettersAux (n : Nat) :
    (columnLettersAux n).foldl (fun r c => r * 26 + (c.toNat - 64)) 0 = n + 1 := by
  induction n using Nat.strong_induction_on with
  | _ n ih =>
    rw [columnLettersAux_eq]
    have hmod : n % 26 < 26 := Nat.mod_lt n (by omega)
    have hlast : (Char.ofNat (65 + n % 26)).toNat = 65 + n % 26 :=
      toNat_ofNat_valid _ (by omega)
    by_cases h26 : n < 26
    · simp only [h26, if_true, List.foldl_cons, List.foldl_nil, hlast]
      omega
    · simp only [h26, if_false, List.foldl_append, List.foldl_cons, List.foldl_nil, hlast]
      have hdiv : n / 26 ≤ n := Nat.div_le_self n 26
      have hdiv2 : 0 < n / 26 := Nat.div_pos (by omega) (by omega)
      rw [ih (n / 26 - 1) (by omega)]
      have : (n / 26 - 1 + 1) = n / 26 := by omega
      rw [this]
      omega

theorem letterFold_cast (l : List Char) (h : ∀ c ∈ l, 65 ≤ c.toNat) :
    ∀ r : Nat, l.foldl (fun r c => r * 26 + ((c.toNat : Int) - 64)) (r : Int) =
      ((l.foldl (fun r c => r * 26 + (c.toNat - 64)) r : Nat) : Int) := by
  induction l with
  | nil => intro r; rfl
  | cons c l ihl =>
    intro r
    simp only [List.foldl_cons]
    have hc : 65 ≤ c.toNat := h c (by simp)
    have hstep : (r : Int) * 26 + ((c.toNat : Int) - 64) =
        ((r * 26 + (c.toNat - 64) : Nat) : Int) := by
      omega
    rw [hstep, ihl (fun c hc => h c (by simp [hc]))]

theorem letterToColumnIndex_columnIndexToLetter (i : Int) (h0 : 0 ≤ i) :
    letterToColumnIndex (columnIndexToLetter i) = i := by
  unfold columnIndexToLetter
  rw [if_neg (by omega)]
  unfold letterToColumnIndex
  have hl : (String.mk (columnLettersAux i.toNat)).toList = columnLettersAux i.toNat := rfl
  rw [hl]
  have hmem := mem_columnLettersAux i.toNat
  have hcast := letterFold_cast (columnLettersAux i.toNat) (fun c hc => (hmem c hc).1) 0
  rw [Nat.cast_zero] at hcast
  rw [hcast, natFold_columnLettersAux]
  omega

theorem natFold_append_last (l : List Char) (c : Char) (r : Nat) :
    (l ++ [c]).foldl (fun r c => r * 26 + (c.toNat - 64)) r =
      (l.foldl (fun r c => r * 26 + (c.toNat - 64)) r) * 26 + (c.toNat - 64) := by
  rw [List.foldl_append]
  rfl

theorem aux_of_natFold (l : List Char) :
    l ≠ [] → (∀ c ∈ l, 65 ≤ c.toNat ∧ c.toNat ≤ 90) →
    1 ≤ l.foldl (fun r c => r * 26 + (c.toNat - 64)) 0 ∧
    columnLettersAux (l.foldl (fun r c => r * 26 + (c.toNat - 64)) 0 - 1) = l := by
  induction l using List.reverseRecOn with
  | nil => intro h; exact absurd rfl h
  | append_singleton xs c ih =>
    intro _ hup
    have hc := hup c (by simp)
    rw [natFold_append_last]
    rcases eq_or_ne xs [] with rfl | hxs
    · simp only [List.foldl_nil, Nat.zero_mul, Nat.zero_add]
      refine ⟨by omega, ?_⟩
      rw [columnLettersAux_eq, if_pos (by omega)]
      have h65 : 65 + (c.toNat - 64 - 1) % 26 = c.toNat := by omega
      rw [h65, Char.ofNat_toNat]
      simp
    · have hih := ih hxs (fun d hd => hup d (by simp [hd]))
      generalize hF : xs.foldl (fun r c => r * 26 + (c.toNat - 64)) 0 = F at hih
      obtain ⟨hF1, hFaux⟩ := hih
      refine ⟨by omega, ?_⟩
      rw [columnLettersAux_eq, if_neg (by omega)]
      have h1 : (F * 26 + (c.toNat - 64) - 1) / 26 - 1 = F - 1 := by omega
      have h2 : 65 + (F * 26 + (c.toNat - 64) - 1) % 26 = c.toNat := by omega
      rw [h1, h2, hFaux, Char.ofNat_toNat]

theorem columnIndexToLetter_letterToColumnIndex (L : String) (hne : L ≠ "")
    (hup : ∀ c ∈ L.toList, 'A' ≤ c ∧ c ≤ 'Z') :
    columnIndexToLetter (letterToColumnIndex L) = L := by
  have hup' : ∀ c ∈ L.toList, 65 ≤ c.toNat ∧ c.toNat ≤ 90 := by
    intro c hc
    have h := hup c hc
    simp only [Char.le_def] at h
    exact ⟨h.1, h.2⟩
  have hlne : L.toList ≠ [] := by
    intro h
    apply hne
    cases L
    simp only [String.toList] at h
    simp [h]
  obtain ⟨h1, h2⟩ := aux_of_natFold L.toList hlne hup'
  unfold letterToColumnIndex
  have hcast := letterFold_cast L.toList (fun c hc => (hup' c hc).1) 0
  rw [Nat.cast_zero] at hcast
  rw [hcast]
  unfold columnIndexToLetter
  rw [if_neg (by omega)]
  have h3 : ((((L.toList.foldl (fun r c => r * 26 + (c.toNat - 64)) 0 : Nat) : Int)
      - 1).toNat) = L.toList.foldl (fun r c => r * 26 + (c.toNat - 64)) 0 - 1 := by
    omega
  rw [h3, h2]
  cases L
  rfl

set_option maxRecDepth 40000 in
/-- C1: the claim says trimmed input with at least two tokens whose first
token is no recognized address form is accepted as free text (GENERAL_MESSAGE
action event, sentinel targets) and never rejected.  The code does the
opposite: `parseCommand` throws "Invalid cell format" for such input
("Hello World" here), and `processUserMessage` surfaces it as the generic
500 error, so the GENERAL_MESSAGE arm is never reached.  The repository's
own test "should process a general message" expects success, so this is a
bug in the code rather than in the claim. -/
theorem claim1_general_fallback_rejected :
    parseCommand initialDataStore.spreadsheetState "Hello World" =
      .error ⟨"Invalid cell format. Use: A1, B5, etc.", 400⟩ ∧
    (processUserMessage "Hello World" none none initialDataStore).2 =
      .error ⟨"Failed to process user message", 500⟩ :=
  ⟨rfl, rfl⟩

set_option maxRecDepth 40000 in
set_option maxHeartbeats 2000000 in
/-- C2: the claim says `apply("ZZZ1 x")` is rejected because the column
exceeds the "ZZ" ceiling (0-based 701).  The ceiling exists only in the dead
helper `parseColumn` (which indeed maps "ZZ" to 701 and "ZZZ" to the -1
sentinel) — the live parser uses `letterToColumnIndex`, which has no ceiling,
so the command succeeds, writes a cell at column index 18277, and expands the
grid to 18278 columns.  The repository's own test expects the rejection, so
the code, not the claim, is at fault. -/
theorem claim2_column_ceiling_not_enforced :
    parseColumn "ZZ" = 701 ∧
    parseColumn "ZZZ" = -1 ∧
    letterToColumnIndex "ZZZ" = 18277 ∧
    (processUserMessage "ZZZ1 x" none none initialDataStore).2.toOption.isSome = true ∧
    (processUserMessage "ZZZ1 x" none none initialDataStore).1.spreadsheetState.columns
      = 18278 ∧
    lookupCells
      (processUserMessage "ZZZ1 x" none none initialDataStore).1.spreadsheetState.cells
      0 18277 =
      some { row := 0, col := 18277, value := "x", format := defaultFormat } :=
  ⟨rfl, rfl, rfl, rfl, rfl, rfl⟩

set_option maxRecDepth 40000 in
/-- C3: the claim says failed validation surfaces to the caller with the
specific human-readable message and a 400 classification.  `parseCommand`
does construct such errors, but the catch-all in `processUserMessage`
rethrows every failure as `CustomError("Failed to process user message",
500)`, so the caller sees a generic 500 instead — shown here for a
too-few-tokens input and a row-0 input.  The inner 400-classified errors
witness that the claim matches the code's evident intent. -/
theorem claim3_validation_errors_wrapped_as_500 :
    parseCommand initialDataStore.spreadsheetState "x" =
      .error ⟨"Invalid command format. Use: <cell> <value> or <range> <value>", 400⟩ ∧
    (processUserMessage "x" none none initialDataStore).2 =
      .error ⟨"Failed to process user message", 500⟩ ∧
    parseCommand initialDataStore.spreadsheetState "A0 x" =
      .error ⟨"Row number must be at least 1", 400⟩ ∧
    (processUserMessage "A0 x" none none initialDataStore).2 =
      .error ⟨"Failed to process user message", 500⟩ :=
  ⟨rfl, rfl, rfl, rfl⟩

set_option maxRecDepth 100000 in
set_option maxHeartbeats 2000000 in
/-- C4 counterexample: the claim says every command addressing a row below 1
fails — including the RANGE command "A0-5 x" — but that command succeeds
(the RANGE branch never validates rows). -/
theorem claim4_counterexample_range_row0_applies :
    (processUserMessage "A0-5 x" none none initialDataStore).2.toOption.isSome = true :=
  rfl

set_option maxRecDepth 100000 in
set_option maxHeartbeats 2000000 in
/-- C4 amended: a SINGLE command with row 0 ("A0 x") fails (as the generic
wrapped 500) and leaves the grid untouched, but RANGE commands are not
row-validated: "A0-5 x" applies and upserts a cell at row index -1. -/
theorem claim4_amended_single_only_row_check :
    (∀ (s : SpreadsheetDataStore) (u v : Option String),
      (processUserMessage "A0 x" u v s).2 =
        .error ⟨"Failed to process user message", 500⟩ ∧
      (processUserMessage "A0 x" u v s).1.spreadsheetState = s.spreadsheetState) ∧
    ((processUserMessage "A0-5 x" none none initialDataStore).2.toOption.isSome = true ∧
     lookupCells
       (processUserMessage "A0-5 x" none none initialDataStore).1.spreadsheetState.cells
       (-1) 0 =
       some { row := -1, col := 0, value := "x", format := defaultFormat }) := by
  constructor
  · intro s u v
    have hp : parseCommand s.spreadsheetState "A0 x" =
        .error ⟨"Row number must be at least 1", 400⟩ := rfl
    rw [processUserMessage_error_parts "A0 x" u v s _ hp]
    exact ⟨rfl, rfl⟩
  · exact ⟨rfl, rfl⟩

/-- C5 counterexample: the claim quantifies over letter strings and compares
with the uppercased input, but `letterToColumnIndex` does no case folding:
"a" maps to index 32 (within the accepted range [0, 701]), and mapping back
yields "AG", not "A". -/
theorem claim5_counterexample_lowercase :
    letterToColumnIndex "a" = 32 ∧ (0 : Int) ≤ 32 ∧ (32 : Int) ≤ 701 ∧
    columnIndexToLetter (letterToColumnIndex "a") = "AG" ∧
    jsToUpper "a" = "A" ∧ ("AG" : String) ≠ "A" :=
  ⟨rfl, by decide, by decide, rfl, rfl, by decide⟩

/-- C5 amended: the codec is a bijection between indices and UPPERCASE
letter strings: `letterToColumnIndex` inverts `columnIndexToLetter` on
[0, 701], and `columnIndexToLetter` inverts `letterToColumnIndex` on
non-empty all-uppercase strings (on which the uppercasing in the original
claim is the identity). -/
theorem claim5_amended_codec_bijection :
    (∀ i : Int, 0 ≤ i → i ≤ 701 → letterToColumnIndex (columnIndexToLetter i) = i) ∧
    (∀ L : String, L ≠ "" → (∀ c ∈ L.toList, 'A' ≤ c ∧ c ≤ 'Z') →
      columnIndexToLetter (letterToColumnIndex L) = L) := by
  constructor
  · intro i h0 _
    exact letterToColumnIndex_columnIndexToLetter i h0
  · intro L hne hup
    exact columnIndexToLetter_letterToColumnIndex L hne hup

/-- C5 amended, witnessed at index 701 (the claimed ceiling) and at the
two-letter string "AA". -/
theorem claim5_amended_codec_bijection_witness :
    letterToColumnIndex (columnIndexToLetter 701) = 701 ∧
    columnIndexToLetter (letterToColumnIndex "AA") = "AA" :=
  ⟨claim5_amended_codec_bijection.1 701 (by decide) (by decide),
   claim5_amended_codec_bijection.2 "AA" (by decide) (by decide)⟩

/-- C6: for any store, "A1-100 X" parses as a RANGE whose end column defaults
to the start column (end token "100" has no letters), sets "X" on every cell
(row 0..99, column 0), leaves rows at `max rows 100` (i.e. expands to 100
unless already at least 100), and appends exactly one UPDATE_CELL action
event whose `cellsUpdated` count is 100. -/
theorem claim6_range_fill (s : SpreadsheetDataStore) :
    parseCommand s.spreadsheetState "A1-100 X" =
      .ok { type := .RANGE, startCell := some "A1", endCell := some "100",
            startCol := some 0, startRow := some 1, endCol := some 0, endRow := some 100,
            value := "X", originalCommand := "A1-100 X" } ∧
    (processUserMessage "A1-100 X" none none s).1.spreadsheetState.rows =
      max s.spreadsheetState.rows 100 ∧
    (∀ x : Fin 100,
      lookupCells (processUserMessage "A1-100 X" none none s).1.spreadsheetState.cells
        ((x : Nat) : Int) 0 =
        some { row := ((x : Nat) : Int), col := 0, value := "X",
               format := defaultFormat }) ∧
    (processUserMessage "A1-100 X" none none s).1.actionEvents =
      s.actionEvents ++
        [{ action := "UPDATE_CELL", target := { row := 1, col := 0 },
           data := { value := some "X", range := some "A1-100", cellsUpdated := some 100 },
           message := "Updated range A1-100 with \"X\" (100 cells)" }] := by
  have hp : parseCommand s.spreadsheetState "A1-100 X" =
      .ok { type := .RANGE, startCell := some "A1", endCell := some "100",
            startCol := some 0, startRow := some 1, endCol := some 0, endRow := some 100,
            value := "X", originalCommand := "A1-100 X" } := rfl
  have hap : applyParsed s.spreadsheetState
      { type := .RANGE, startCell := some "A1", endCell := some "100",
        startCol := some 0, startRow := some 1, endCol := some 0, endRow := some 100,
        value := "X", originalCommand := "A1-100 X" } =
      .ok ((rangeLoop "X" 1 100 0 0 s.spreadsheetState).1,
        { action := "UPDATE_CELL", target := { row := 1, col := 0 },
          data := { value := some "X", range := some "A1-100",
                    cellsUpdated :=
                      some ((rangeLoop "X" 1 100 0 0 s.spreadsheetState).2.length : Int) },
          message := "Updated range " ++ "A1" ++ "-" ++ "100" ++ " with \"" ++ "X"
            ++ "\" (" ++ toString (rangeLoop "X" 1 100 0 0 s.spreadsheetState).2.length
            ++ " cells)" },
        { type := "CELL_UPDATE", cellData := { row := 1, col := 0, value := "X" } }) := rfl
  have hrw := processUserMessage_ok_parts "A1-100 X" none none s _ _ _ _ hp hap
  have hsnd : (rangeLoop "X" 1 100 0 0 s.spreadsheetState).2.length = 100 := by
    rw [rangeLoop_single_col, foldl_rangeCellStep_snd_length, length_intRangeList]
    rfl
  refine ⟨hp, ?_, ?_, ?_⟩
  · rw [hrw]
    show (rangeLoop "X" 1 100 0 0 s.spreadsheetState).1.rows = max s.spreadsheetState.rows 100
    rw [rangeLoop_single_col, foldl_rangeCellStep_rows]
    exact foldl_max_min_intRange 100 (by omega) 99 1 s.spreadsheetState.rows (by omega)
      (by decide)
  · intro x
    rw [hrw]
    show lookupCells (rangeLoop "X" 1 100 0 0 s.spreadsheetState).1.cells ((x : Nat) : Int) 0
      = some { row := ((x : Nat) : Int), col := 0, value := "X", format := defaultFormat }
    rw [rangeLoop_single_col, foldl_rangeCellStep_lookup]
    rw [if_pos ((mem_intRangeList _ 1 100).mpr ⟨by omega, by
      have := x.isLt
      omega⟩)]
  · rw [hrw]
    show s.actionEvents ++ [_] = s.actionEvents ++ [_]
    rw [hsnd]
    rfl

/-- C7: on any store with more than one column (and a matching headers list),
"change column B to Age" parses as a header rename of column index 1, sets
headers[1] to "Age", and changes nothing else in the grid: cells, rows and
columns counts are untouched and the whole headers list equals the old list
with only entry 1 replaced. -/
theorem claim7_header_rename (s : SpreadsheetDataStore)
    (hcols : 1 < s.spreadsheetState.columns)
    (hlen : 1 < s.spreadsheetState.headers.length) :
    (processUserMessage "change column B to Age" none none s).2.toOption.isSome = true ∧
    (processUserMessage "change column B to Age" none none s).1.spreadsheetState.headers =
      s.spreadsheetState.headers.set 1 "Age" ∧
    ((processUserMessage "change column B to Age" none none s).1.spreadsheetState.headers)[1]? =
      some "Age" ∧
    (processUserMessage "change column B to Age" none none s).1.spreadsheetState.cells =
      s.spreadsheetState.cells ∧
    (processUserMessage "change column B to Age" none none s).1.spreadsheetState.rows =
      s.spreadsheetState.rows ∧
    (processUserMessage "change column B to Age" none none s).1.spreadsheetState.columns =
      s.spreadsheetState.columns := by
  have hcond : ¬(letterToColumnIndex (jsToUpper "B") < 0 ∨
      s.spreadsheetState.columns ≤ letterToColumnIndex (jsToUpper "B")) := by
    rw [show letterToColumnIndex (jsToUpper "B") = 1 from rfl]
    omega
  have hp : parseCommand s.spreadsheetState "change column B to Age" =
      .ok { type := .HEADER_RENAME, col := some 1, value := "Age",
            originalCommand := "change column B to Age" } := by
    unfold parseCommand
    rw [if_neg (by decide),
        show matchRename (jsTrim "change column B to Age") = some ("B", "Age") from rfl]
    dsimp only
    rw [if_neg hcond]
    rfl
  have hap : applyParsed s.spreadsheetState
      { type := .HEADER_RENAME, col := some 1, value := "Age",
        originalCommand := "change column B to Age" } =
      .ok ({ s.spreadsheetState with
               headers := s.spreadsheetState.headers.set 1 "Age" },
        { action := "HEADER_RENAME", target := { row := -1, col := 1 },
          data := { oldHeader := some (s.spreadsheetState.headers.getD 1 "undefined"),
                    newHeader := some "Age" },
          message := "Header renamed from \""
            ++ s.spreadsheetState.headers.getD 1 "undefined"
            ++ "\" to \"" ++ "Age" ++ "\"" },
        { type := "HEADER_RENAME",
          cellData := { row := -1, col := 1, value := "Age" } }) := by
    unfold applyParsed
    rw [if_neg (by decide), if_neg (by decide), if_pos (by decide)]
    dsimp only [Option.getD]
    rw [if_neg (by omega)]
    rfl
  have hrw := processUserMessage_ok_parts "change column B to Age" none none s _ _ _ _ hp hap
  refine ⟨by rw [hrw]; try rfl, by rw [hrw]; try rfl, ?_, by rw [hrw]; try rfl,
    by rw [hrw]; try rfl, by rw [hrw]; try rfl⟩

  rw [hrw]
  show (s.spreadsheetState.headers.set 1 "Age")[1]? = some "Age"
  exact List.getElem?_set_self hlen

/-- C8: apply is atomic on validation errors: when `processUserMessage`
fails, the grid and the action- and state-event logs are exactly as before
(only the user-event log, which the source pushes before parsing, grows),
and a subsequent call on the failed store produces the same grid, logs, and
result as the same call on the original store. -/
theorem claim8_error_atomicity (m : String) (u v : Option String)
    (s : SpreadsheetDataStore) (e : CustomError)
    (h : (processUserMessage m u v s).2 = .error e) :
    (processUserMessage m u v s).1.spreadsheetState = s.spreadsheetState ∧
    (processUserMessage m u v s).1.actionEvents = s.actionEvents ∧
    (processUserMessage m u v s).1.stateEvents = s.stateEvents ∧
    ∀ (m2 : String) (u2 v2 : Option String),
      (processUserMessage m2 u2 v2 (processUserMessage m u v s).1).1.spreadsheetState =
        (processUserMessage m2 u2 v2 s).1.spreadsheetState ∧
      (processUserMessage m2 u2 v2 (processUserMessage m u v s).1).1.actionEvents =
        (processUserMessage m2 u2 v2 s).1.actionEvents ∧
      (processUserMessage m2 u2 v2 (processUserMessage m u v s).1).1.stateEvents =
        (processUserMessage m2 u2 v2 s).1.stateEvents ∧
      (processUserMessage m2 u2 v2 (processUserMessage m u v s).1).2 =
        (processUserMessage m2 u2 v2 s).2 := by
  have hfst := processUserMessage_error_cases m u v s e h
  refine ⟨by rw [hfst], by rw [hfst], by rw [hfst], ?_⟩
  intro m2 u2 v2
  exact processUserMessage_visible_congr m2 u2 v2 _ s (by rw [hfst]) (by rw [hfst])
    (by rw [hfst])

set_option maxRecDepth 100000 in
set_option maxHeartbeats 2000000 in
/-- C8, witnessed on the failing input "zzz" (single token) against the
initial store, with "A1 hi" as the subsequent call. -/
theorem claim8_error_atomicity_witness :
    (processUserMessage "zzz" none none initialDataStore).1.spreadsheetState =
      initialDataStore.spreadsheetState ∧
    (processUserMessage "zzz" none none initialDataStore).1.actionEvents =
      initialDataStore.actionEvents ∧
    (processUserMessage "A1 hi" none none
        (processUserMessage "zzz" none none initialDataStore).1).2 =
      (processUserMessage "A1 hi" none none initialDataStore).2 :=
  ⟨(claim8_error_atomicity "zzz" none none initialDataStore
      ⟨"Failed to process user message", 500⟩ rfl).1,
   (claim8_error_atomicity "zzz" none none initialDataStore
      ⟨"Failed to process user message", 500⟩ rfl).2.1,
   ((claim8_error_atomicity "zzz" none none initialDataStore
      ⟨"Failed to process user message", 500⟩ rfl).2.2.2 "A1 hi" none none).2.2.2⟩

theorem applyAll_cons (m : String) (msgs : List String) (s : SpreadsheetDataStore) :
    applyAll (m :: msgs) s = applyAll msgs (processUserMessage m none none s).1 := rfl

/-- C9: across any sequence of apply calls on a store whose grid satisfies
the documented invariants (non-negative column count equal to the headers
length, rows within the cap), the rows and columns counts never decrease,
rows stay capped at `MAX_ROWS`, and after the sequence the headers list
still has length exactly `columns`.  Instantiating the message list with
every prefix gives the invariant after every call. -/
theorem claim9_monotonic_growth (msgs : List String) (s : SpreadsheetDataStore)
    (hc0 : 0 ≤ s.spreadsheetState.columns)
    (hlen : (s.spreadsheetState.headers.length : Int) = s.spreadsheetState.columns)
    (hr100 : s.spreadsheetState.rows ≤ MAX_ROWS) :
    s.spreadsheetState.rows ≤ (applyAll msgs s).spreadsheetState.rows ∧
    (applyAll msgs s).spreadsheetState.rows ≤ MAX_ROWS ∧
    s.spreadsheetState.columns ≤ (applyAll msgs s).spreadsheetState.columns ∧
    ((applyAll msgs s).spreadsheetState.headers.length : Int) =
      (applyAll msgs s).spreadsheetState.columns := by
  unfold MAX_ROWS at hr100 ⊢
  induction msgs generalizing s with
  | nil => exact ⟨le_refl _, hr100, le_refl _, hlen⟩
  | cons m msgs ih =>
    rw [applyAll_cons]
    have hstep := processUserMessage_grid_growth m none none s hc0 hlen hr100
    have hrest := ih ((processUserMessage m none none s).1) (by omega) hstep.2.2.2.2
      (by omega)
    exact ⟨by omega, by omega, by omega, hrest.2.2.2⟩

set_option maxRecDepth 100000 in
set_option maxHeartbeats 2000000 in
/-- C9, witnessed on the initial store with a two-command sequence (one
valid single-cell write, one failing command). -/
theorem claim9_monotonic_growth_witness :
    initialDataStore.spreadsheetState.rows ≤
      (applyAll ["A1 hi", "zzz"] initialDataStore).spreadsheetState.rows ∧
    ((applyAll ["A1 hi", "zzz"] initialDataStore).spreadsheetState.headers.length : Int) =
      (applyAll ["A1 hi", "zzz"] initialDataStore).spreadsheetState.columns :=
  ⟨(claim9_monotonic_growth ["A1 hi", "zzz"] initialDataStore (by decide) (by decide)
      (by decide)).1,
   (claim9_monotonic_growth ["A1 hi", "zzz"] initialDataStore (by decide) (by decide)
      (by decide)).2.2.2⟩

/-- C10: a SINGLE command whose 1-based row exceeds the 100-row cap (with the
store's rows within the cap) succeeds anyway: the rows count is clamped to
exactly 100, yet the cell is upserted at its full 0-based index `row - 1`,
leaving a cell whose row index is at least the reported rows count. -/
theorem claim10_row_beyond_cap (m : String) (u v : Option String)
    (s : SpreadsheetDataStore) (cmd : ParsedCommand) (r c : Int)
    (hp : parseCommand s.spreadsheetState m = .ok cmd)
    (ht : cmd.type = .SINGLE) (hr : cmd.row = some r) (hc : cmd.col = some c)
    (h100 : 100 < r) (hrows : s.spreadsheetState.rows ≤ 100) :
    (processUserMessage m u v s).2.toOption.isSome = true ∧
    (processUserMessage m u v s).1.spreadsheetState.rows = 100 ∧
    lookupCells (processUserMessage m u v s).1.spreadsheetState.cells (r - 1) c =
      some { row := r - 1, col := c, value := cmd.value, format := defaultFormat } ∧
    ∃ cell ∈ (processUserMessage m u v s).1.spreadsheetState.cells,
      (processUserMessage m u v s).1.spreadsheetState.rows ≤ cell.row := by
  have hap : applyParsed s.spreadsheetState cmd =
      .ok ({ expandForCell s.spreadsheetState r c with
               cells := upsertCell (expandForCell s.spreadsheetState r c).cells (r - 1) c
                 { row := r - 1, col := c, value := cmd.value, format := defaultFormat } },
        { action := "UPDATE_CELL", target := { row := r - 1, col := c },
          data := { value := some cmd.value },
          message := "Updated cell " ++ optStr cmd.cell },
        { type := "CELL_UPDATE",
          cellData := { row := r - 1, col := c, value := cmd.value } }) := by
    unfold applyParsed
    simp only [ht, hr, hc]
    rfl
  have hrw := processUserMessage_ok_parts m u v s cmd _ _ _ hp hap
  have hrows100 : (expandForCell s.spreadsheetState r c).rows = 100 := by
    rw [expandForCell_rows]
    omega
  refine ⟨by rw [hrw]; rfl, ?_, ?_, ?_⟩
  · rw [hrw]
    show (expandForCell s.spreadsheetState r c).rows = 100
    exact hrows100
  · rw [hrw]
    show lookupCells (upsertCell (expandForCell s.spreadsheetState r c).cells (r - 1) c
        { row := r - 1, col := c, value := cmd.value, format := defaultFormat }) (r - 1) c =
      some { row := r - 1, col := c, value := cmd.value, format := defaultFormat }
    exact lookupCells_upsertCell_self _ _ _ _ rfl rfl
  · rw [hrw]
    refine ⟨{ row := r - 1, col := c, value := cmd.value, format := defaultFormat },
      mem_upsertCell _ _ _ _, ?_⟩
    show (expandForCell s.spreadsheetState r c).rows ≤ r - 1
    omega

set_option maxRecDepth 100000 in
set_option maxHeartbeats 2000000 in
/-- C10, witnessed on "A200 x" against the initial store (rows stay 100, the
cell lands at 0-based row 199). -/
theorem claim10_row_beyond_cap_witness :
    (processUserMessage "A200 x" none none initialDataStore).2.toOption.isSome = true ∧
    (processUserMessage "A200 x" none none initialDataStore).1.spreadsheetState.rows
      = 100 ∧
    lookupCells
      (processUserMessage "A200 x" none none initialDataStore).1.spreadsheetState.cells
      199 0 =
      some { row := 199, col := 0, value := "x", format := defaultFormat } :=
  ⟨(claim10_row_beyond_cap "A200 x" none none initialDataStore
      { type := .SINGLE, cell := some "A200", col := some 0, row := some 200,
        value := "x", originalCommand := "A200 x" } 200 0 rfl rfl rfl rfl
      (by decide) (by decide)).1,
   (claim10_row_beyond_cap "A200 x" none none initialDataStore
      { type := .SINGLE, cell := some "A200", col := some 0, row := some 200,
        value := "x", originalCommand := "A200 x" } 200 0 rfl rfl rfl rfl
      (by decide) (by decide)).2.1,
   (claim10_row_beyond_cap "A200 x" none none initialDataStore
      { type := .SINGLE, cell := some "A200", col := some 0, row := some 200,
        value := "x", originalCommand := "A200 x" } 200 0 rfl rfl rfl rfl
      (by decide) (by decide)).2.2.1⟩

set_option maxRecDepth 100000 in
set_option maxHeartbeats 2000000 in
/-- C7, witnessed on the initial store (26 columns, A-Z headers). -/
theorem claim7_header_rename_witness :
    ((processUserMessage "change column B to Age" none none
        initialDataStore).1.spreadsheetState.headers)[1]? = some "Age" ∧
    (processUserMessage "change column B to Age" none none
        initialDataStore).1.spreadsheetState.cells =
      initialDataStore.spreadsheetState.cells ∧
    (processUserMessage "change column B to Age" none none
        initialDataStore).1.spreadsheetState.columns =
      initialDataStore.spreadsheetState.columns :=
  ⟨(claim7_header_rename initialDataStore (by decide) (by decide)).2.2.1,
   (claim7_header_rename initialDataStore (by decide) (by decide)).2.2.2.1,
   (claim7_header_rename initialDataStore (by decide) (by decide)).2.2.2.2.2⟩

set_option maxRecDepth 100000 in
set_option maxHeartbeats 2000000 in
/-- C4 amended, witnessed on the initial store. -/
theorem claim4_amended_witness :
    (processUserMessage "A0 x" none none initialDataStore).2 =
      .error ⟨"Failed to process user message", 500⟩ ∧
    (processUserMessage "A0 x" none none initialDataStore).1.spreadsheetState =
      initialDataStore.spreadsheetState ∧
    (processUserMessage "A0-5 x" none none initialDataStore).2.toOption.isSome = true :=
  ⟨(claim4_amended_single_only_row_check.1 initialDataStore none none).1,
   (claim4_amended_single_only_row_check.1 initialDataStore none none).2,
   claim4_amended_single_only_row_check.2.1⟩

set_option maxRecDepth 100000 in
set_option maxHeartbeats 4000000 in
/-- C6, witnessed on the initial store at row index 5. -/
theorem claim6_range_fill_witness :
    (processUserMessage "A1-100 X" none none initialDataStore).1.spreadsheetState.rows =
      max initialDataStore.spreadsheetState.rows 100 ∧
    lookupCells
      (processUserMessage "A1-100 X" none none initialDataStore).1.spreadsheetState.cells
      ((5 : Nat) : Int) 0 =
      some { row := ((5 : Nat) : Int), col := 0, value := "X", format := defaultFormat } :=
  ⟨(claim6_range_fill initialDataStore).2.1,
   (claim6_range_fill initialDataStore).2.2.1 ⟨5, by decide⟩⟩
